import Mathlib

/-!
Shallow embedding of the telescope-control client in
`src/modules/Telescope.cpp` (classes `Telescope`, `TelescopeTcp`,
`TelescopeDummy`), together with theorems checking the natural-language
specification against it.

Modelling conventions:
* machine integers (`long long int`, `int`) are Lean `Int`; bytes are `Nat`
  (values below 256 as produced by `recv`);
* the double-precision direction vectors are modelled with exact rational
  components (`Vec3`); the spherical `cos`/`sin` decode of inbound angles
  (lines 507-512) is kept abstract as a parameter `decodeDir`, since no claim
  depends on its values; real-number statements about renormalisation use the
  interpretation layer `RVec3`/`obsVec`;
* external effects (socket calls, `recv`/`send` results, `gethostbyname`,
  the `GetNow()` clock) are passed in explicitly as parameters, so every
  operation is a pure function on the client state.
-/

namespace Stellarium

/-- Exact-rational model of `Vec3d` (three `double` components). -/
structure Vec3 where
  x : ℚ
  y : ℚ
  z : ℚ
deriving DecidableEq

instance : Add Vec3 := ⟨fun a b => ⟨a.x + b.x, a.y + b.y, a.z + b.z⟩⟩

instance : SMul ℚ Vec3 := ⟨fun a v => ⟨a * v.x, a * v.y, a * v.z⟩⟩

/-- `Vec3d::lengthSquared()`: sum of squared components. -/
def Vec3.lengthSq (v : Vec3) : ℚ := v.x * v.x + v.y * v.y + v.z * v.z

theorem Vec3.add_def (a b : Vec3) : a + b = ⟨a.x + b.x, a.y + b.y, a.z + b.z⟩ := rfl

theorem Vec3.smul_def (a : ℚ) (v : Vec3) : a • v = ⟨a * v.x, a * v.y, a * v.z⟩ := rfl

/-- One slot of the position history (struct `TelescopeTcp::Position`,
lines 168-173). -/
structure Position where
  server_micros : Int
  client_micros : Int
  pos : Vec3
  status : Int
deriving DecidableEq

/-- The sentinel timestamp `0x7FFFFFFFFFFFFFFFLL` marking a history slot that
has never been written. -/
def unsetMicros : Int := 0x7FFFFFFFFFFFFFFF

/-- The all-unset history produced by the constructor and by `hangup()`
(lines 339-349 and 360-370): every slot carries the sentinel timestamps,
a zero vector and status 0. -/
def initialHistory : Fin 16 → Position :=
  fun _ => ⟨unsetMicros, unsetMicros, ⟨0, 0, 0⟩, 0⟩

/-- The mutable state of a `TelescopeTcp` instance.  `fdValid` abstracts the
socket descriptor (`fd` / `IS_INVALID_SOCKET`); the byte buffers
`read_buff[120]` / `write_buff[120]` with their `*_end` pointers are the
lists of currently buffered bytes; `positions`/`posPtr` are the 16-slot
circular history and its write cursor `position_pointer`. -/
structure TcpState where
  fdValid : Bool
  wait : Bool
  end_of_timeout : Int
  readBuff : List Nat
  writeBuff : List Nat
  positions : Fin 16 → Position
  posPtr : Fin 16
  timeDelay : Int
deriving DecidableEq

/-- Capacity of both byte buffers: `sizeof(read_buff)` = `sizeof(write_buff)`
= 120. -/
def buffCapacity : Nat := 120

/-- The state right after a successful `TelescopeTcp` constructor run
(lines 284-350): invalid socket, empty buffers, `end_of_timeout`
= `-0x8000000000000000`, history all unset, cursor at slot 0. -/
def initState (timeDelay : Int) : TcpState :=
  { fdValid := false
    wait := false
    end_of_timeout := -0x8000000000000000
    readBuff := []
    writeBuff := []
    positions := initialHistory
    posPtr := 0
    timeDelay := timeDelay }

/-- `TelescopeTcp::hangup()` (lines 352-371): close the socket, reset both
byte buffers, clear the connection-establishment flag and reset every history
slot to the unset sentinel.  `end_of_timeout` and `time_delay` are untouched. -/
def hangup (s : TcpState) : TcpState :=
  { s with
    fdValid := false
    wait := false
    readBuff := []
    writeBuff := []
    positions := initialHistory
    posPtr := 0 }

/-- `TelescopeTcp::isConnected()` (lines 148-149): valid socket and not
waiting for connection establishment. -/
def isConnectedB (s : TcpState) : Bool := s.fdValid && !s.wait

/-- `TelescopeTcp::hasKnownPosition()` (lines 177-178): the current history
slot carries a real (non-sentinel) local-receipt timestamp. -/
def hasKnownPositionB (s : TcpState) : Bool :=
  (s.positions s.posPtr).client_micros != unsetMicros

/-- The three connection states described by the specification, derived
observables of the `fd`/`wait_for_connection_establishment` pair. -/
inductive ConnState where
  | disconn
  | connecting
  | connected
deriving DecidableEq

/-- Observable connection state of a client state. -/
def connState (s : TcpState) : ConnState :=
  if s.fdValid = false then .disconn
  else if s.wait then .connecting
  else .connected

/-- Lines 503-506 and 513 of `performReading`, type-0 branch: advance the
write cursor (wrapping at 16) and overwrite that slot with the new sample. -/
def storePosition (s : TcpState) (server_micros client_micros : Int)
    (pos : Vec3) (status : Int) : TcpState :=
  let p : Fin 16 := s.posPtr + 1
  { s with
    posPtr := p
    positions := Function.update s.positions p
      ⟨server_micros, client_micros, pos, status⟩ }

/-- The three outcomes `getObsJ2000Pos` can deliver: the zero vector (no
sample ever received), a blended vector still to be renormalised, or a raw
stored sample direction.  The renormalisation itself is irrational, so it
lives in the real-valued interpretation `obsVec` below. -/
inductive ObsResult where
  | zero
  | blend (v : Vec3)
  | raw (v : Vec3)
deriving DecidableEq

/-- The backward scan of `getObsJ2000Pos` (the `do`/`while` loop, lines
542-560).  `p` plays the role of the scan pointer; the fuel counts the at
most 16 loop-body executions before `p` cycles back to `position_pointer`,
at which point the loop exits and `p->pos` (now again the newest slot) is
returned. -/
def scanLoop (s : TcpState) (now : Int) : Fin 16 → Nat → ObsResult
  | p, 0 => .raw (s.positions p).pos
  | p, fuel + 1 =>
    let pp : Fin 16 := p - 1
    if (s.positions pp).client_micros = unsetMicros then
      .raw (s.positions p).pos
    else if (s.positions pp).client_micros ≤ now ∧
            now ≤ (s.positions p).client_micros then
      if (s.positions pp).client_micros ≠ (s.positions p).client_micros then
        let rval : Vec3 :=
          ((now - (s.positions pp).client_micros : Int) : ℚ) • (s.positions p).pos +
          (((s.positions p).client_micros - now : Int) : ℚ) • (s.positions pp).pos
        if 0 < rval.lengthSq then .blend rval
        else .raw (s.positions p).pos
      else .raw (s.positions p).pos
    else scanLoop s now pp fuel

/-- `TelescopeTcp::getObsJ2000Pos` (lines 537-562), with `GetNow()` passed in
as `tnow`.  Returns the symbolic outcome; `obsVec` interprets it as the
actual real vector. -/
def getObsCore (s : TcpState) (tnow : Int) : ObsResult :=
  if (s.positions s.posPtr).client_micros = unsetMicros then .zero
  else
    let now := tnow - s.timeDelay
    scanLoop s now s.posPtr 16

/-! ### Binary codec and inbound frame parser -/

/-- Little-endian 16-bit peek, lines 455-456 and 467-468: byte 0 plus 256
times byte 1 of the given buffer tail. -/
def peek16 (l : List Nat) : Nat := l.getD 0 0 + 256 * l.getD 1 0

/-- Little-endian unsigned read of `k` bytes starting at the front of `l`. -/
def leVal : Nat → List Nat → Nat
  | 0, _ => 0
  | k + 1, l => l.getD 0 0 + 256 * leVal k (l.drop 1)

/-- Signed 64-bit value of the 8 little-endian bytes at the front of `l`
(the `server_micros` decode, lines 478-486). -/
def i64FromLE (l : List Nat) : Int :=
  let u := leVal 8 l
  if u < 2 ^ 63 then (u : Int) else (u : Int) - 2 ^ 64

/-- Signed 32-bit value of the 4 little-endian bytes at the front of `l`
(the `dec_int` / `status` decodes, lines 492-501). -/
def i32FromLE (l : List Nat) : Int :=
  let u := leVal 4 l
  if u < 2 ^ 31 then (u : Int) else (u : Int) - 2 ^ 32

/-- Unsigned 32-bit value of the 4 little-endian bytes at the front of `l`
(the `ra_int` decode, lines 487-491). -/
def u32FromLE (l : List Nat) : Int := (leVal 4 l : Int)

/-- The frame-parser loop of `performReading` (lines 453-533), acting on the
full buffered byte list.  The fuel bounds the number of loop iterations;
every iteration either terminates the loop or consumes a frame of at least
4 bytes, so fuel `buf.length` (as supplied by `runParse`) can never run out.
Terminal cases write the leftover bytes back as the new `read_buff`
contents, which models the compaction `memmove` / reset of lines 526-533. -/
def parseLoop (decodeDir : Int → Int → Vec3) (now : Int) :
    Nat → TcpState → List Nat → TcpState
  | 0, s, buf => { s with readBuff := buf }
  | fuel + 1, s, buf =>
    if buf.length < 2 then { s with readBuff := buf }
    else
      let size := peek16 buf
      if buffCapacity < size ∨ size < 4 then hangup s
      else if buf.length < size then { s with readBuff := buf }
      else
        let ty := peek16 (buf.drop 2)
        if ty = 0 then
          if size < 24 then hangup s
          else
            parseLoop decodeDir now fuel
              (storePosition s (i64FromLE (buf.drop 4)) now
                (decodeDir (u32FromLE (buf.drop 12)) (i32FromLE (buf.drop 16)))
                (i32FromLE (buf.drop 20)))
              (buf.drop size)
        else parseLoop decodeDir now fuel s (buf.drop size)

/-- Run the frame parser over a buffered byte list (entry into the loop at
line 453, with `p = read_buff`). -/
def runParse (decodeDir : Int → Int → Vec3) (now : Int) (s : TcpState)
    (buf : List Nat) : TcpState :=
  parseLoop decodeDir now buf.length s buf

/-- Possible outcomes of the `recv` call in `performReading` (line 440):
a fatal error, a transient (`EINTR`/`EAGAIN`) error, a zero-byte read
(peer closed), or a chunk of received bytes. -/
inductive RecvRes where
  | fatalErr
  | transientErr
  | closed
  | bytes (data : List Nat)

/-- `TelescopeTcp::performReading` (lines 438-535) with the `recv` outcome
passed in.  A received chunk never exceeds the free space
`sizeof(read_buff) - (read_buff_end - read_buff)`, which the `take`
enforces; the bytes are appended and the frame parser runs. -/
def performReading (decodeDir : Int → Int → Vec3) (now : Int) (r : RecvRes)
    (s : TcpState) : TcpState :=
  match r with
  | .fatalErr => hangup s
  | .transientErr => s
  | .closed => hangup s
  | .bytes data =>
    runParse decodeDir now s
      (s.readBuff ++ data.take (buffCapacity - s.readBuff.length))

/-- Possible outcomes of the `send` call in `performWriting` (line 419). -/
inductive SendRes where
  | fatalErr
  | transientErr
  | sent (rc : Nat)

/-- `TelescopeTcp::performWriting` (lines 417-436): fatal send errors hang
up, transient ones retry later, a partial write retains the unsent tail. -/
def performWriting (r : SendRes) (s : TcpState) : TcpState :=
  match r with
  | .fatalErr => hangup s
  | .transientErr => s
  | .sent rc =>
    if rc = 0 then s
    else if s.writeBuff.length ≤ rc then { s with writeBuff := [] }
    else { s with writeBuff := s.writeBuff.drop rc }

/-- Little-endian byte serialisation of the low `k` bytes of an integer
(the repeated `*write_buff_end++ = v; v >>= 8;` pattern, lines 385-409). -/
def leBytes (k : Nat) (v : Int) : List Nat :=
  (List.range k).map (fun i => ((v % 2 ^ (8 * k)).toNat >>> (8 * i)) % 256)

/-- The 20-byte goto frame queued by `telescopeGoto` (lines 385-409):
`u16 length=20, u16 type=0, i64 client_micros, u32 ra, i32 dec`. -/
def gotoFrame (now ra_int dec_int : Int) : List Nat :=
  [20, 0, 0, 0] ++ leBytes 8 now ++ leBytes 4 ra_int ++ leBytes 4 dec_int

/-- `TelescopeTcp::telescopeGoto` (lines 373-415).  The target direction
enters only through the already-quantised angle integers `ra_int`/`dec_int`
(computed by the floating-point `atan2`/`floor` code of lines 376-381, kept
abstract here); the claims under check concern the queueing policy, which
does not depend on those values.  When not connected, or when the queued
bytes plus 20 would not fit strictly below the 120-byte capacity, the state
is unchanged and no error is surfaced. -/
def telescopeGoto (now ra_int dec_int : Int) (s : TcpState) : TcpState :=
  if isConnectedB s then
    if s.writeBuff.length + 20 < buffCapacity then
      { s with writeBuff := s.writeBuff ++ gotoFrame now ra_int dec_int }
    else s
  else s

/-! ### Connection state machine hooks -/

/-- Outcome of the non-blocking `connect` call (line 583). -/
inductive ConnectRes where
  | immediate
  | inProgress
  | fatal

/-- Outcomes of the socket-setup system calls made by `prepareSelectFds`. -/
structure NetEnv where
  socketOk : Bool
  nonBlockOk : Bool
  connectRes : ConnectRes

/-- Which of the client's fd bits `prepareSelectFds` sets in the reactor's
`read_fds` / `write_fds` sets. -/
structure Interests where
  rd : Bool
  wr : Bool
deriving DecidableEq

/-- `TelescopeTcp::prepareSelectFds` (lines 564-617) with the socket-call
outcomes passed in.  Disconnected: attempt a reconnect once
`end_of_timeout` has been reached, re-arming it to `now + 5000000`.
Connecting: hang up when `now > end_of_timeout` (setting the next
reconnect deadline to `now + 1000000`), otherwise register write interest.
Connected: register read interest, and write interest while the outbound
queue is non-empty. -/
def prepareSelectFds (env : NetEnv) (now : Int) (s : TcpState) :
    TcpState × Interests :=
  if s.fdValid = false then
    if now < s.end_of_timeout then (s, ⟨false, false⟩)
    else
      let s1 := { s with end_of_timeout := now + 5000000 }
      if env.socketOk = false then (s1, ⟨false, false⟩)
      else
        let s2 := { s1 with fdValid := true }
        if env.nonBlockOk = false then (hangup s2, ⟨false, false⟩)
        else
          match env.connectRes with
          | .fatal => (hangup s2, ⟨false, false⟩)
          | .inProgress => ({ s2 with wait := true }, ⟨false, false⟩)
          | .immediate => ({ s2 with wait := false }, ⟨false, false⟩)
  else
    if s.wait then
      if s.end_of_timeout < now then
        (hangup { s with end_of_timeout := now + 1000000 }, ⟨false, false⟩)
      else (s, ⟨false, true⟩)
    else (s, ⟨true, decide (s.writeBuff ≠ [])⟩)

/-- Outcomes of the `getsockopt(SO_ERROR)` probe in `handleSelectFds`
(lines 625-627). -/
structure SockProbe where
  getsockoptOk : Bool
  soError : Int

/-- `TelescopeTcp::handleSelectFds` (lines 619-651) with readiness flags and
system-call outcomes passed in.  While connecting, write-readiness resolves
the pending connect via `SO_ERROR`; while connected, write-readiness drains
the outbound queue and read-readiness (re-checking the socket) reads and
parses. -/
def handleSelectFds (env : SockProbe) (sendRes : SendRes) (recvRes : RecvRes)
    (decodeDir : Int → Int → Vec3) (now : Int)
    (readReady writeReady : Bool) (s : TcpState) : TcpState :=
  if s.fdValid = false then s
  else if s.wait then
    if writeReady then
      let s1 := { s with wait := false }
      if env.getsockoptOk = false then hangup s1
      else if env.soError ≠ 0 then hangup s1
      else s1
    else s
  else
    let s1 := if writeReady then performWriting sendRes s else s
    if s1.fdValid && readReady then performReading decodeDir now recvRes s1
    else s1

/-! ### Factory and descriptor parsing

`QString` values are modelled as `List Char` so that all operations reduce.
-/

/-- Split a character list at every occurrence of `c` (the decomposition
performed by the anchored `QRegExp` groups `([^:]*)`, which cannot contain
the separator). -/
def splitOnChar (c : Char) : List Char → List (List Char)
  | [] => [[]]
  | a :: rest =>
    let r := splitOnChar c rest
    if a = c then [] :: r
    else (a :: r.headD []) :: r.tail

/-- Rejoin character lists with `:` between them (the text captured by the
trailing `(:(.*))?` group, which may itself contain `:`). -/
def joinColon : List (List Char) → List Char
  | [] => []
  | [l] => l
  | l :: rest => l ++ ':' :: joinColon rest

/-- `QString::trimmed()`: strip leading and trailing whitespace. -/
def trimChars (l : List Char) : List Char :=
  ((l.dropWhile Char.isWhitespace).reverse.dropWhile Char.isWhitespace).reverse

/-- Whether a character list is a non-empty run of decimal digits, i.e.
matches the `QRegExp` group `(\d+)`. -/
def isDigitRun (l : List Char) : Bool := !l.isEmpty && l.all Char.isDigit

/-- Numeric value of a run of decimal digits. -/
def digitsVal (l : List Char) : Nat :=
  l.foldl (fun a c => 10 * a + (c.toNat - 48)) 0

/-- `QString::toInt` applied to a matched `(\d+)` group: the decimal value,
or 0 when it overflows the 32-bit `int` range. -/
def qToInt (l : List Char) : Int :=
  if digitsVal l ≤ 2147483647 then (digitsVal l : Int) else 0

/-- The type tag `"Dummy"` selecting the simulator variant (line 212). -/
def dummyChars : List Char := ['D', 'u', 'm', 'm', 'y']

/-- The type tag `"TCP"` selecting the stream client variant (line 214). -/
def tcpChars : List Char := ['T', 'C', 'P']

/-- The telescope objects the factory can build: the `TelescopeDummy`
simulator or a `TelescopeTcp` stream client with its validated
parameters. -/
inductive Telescope where
  | dummy (name : List Char)
  | tcp (name host : List Char) (port timeDelay : Int)
deriving DecidableEq

/-- Parameter validation of the `TelescopeTcp` constructor (lines 297-337),
with host resolution (`gethostbyname` returning an IPv4 address, lines
324-332) abstracted as the predicate `resolve`.  Construction leaves
`isInitialized()` false (port 0) unless the params match
`^([^:]*):(\d+):(\d+)$`, the port is in `[1, 0xFFFF]`, the delay is in
`[1, 10000000]` and the host resolves. -/
def parseTcpParams (resolve : List Char → Bool) (params : List Char) :
    Option (List Char × Int × Int) :=
  match splitOnChar ':' params with
  | [h, p, d] =>
    if isDigitRun p && isDigitRun d then
      let host := trimChars h
      let port := qToInt p
      let delay := qToInt d
      if port ≤ 0 ∨ 0xFFFF < port then none
      else if delay ≤ 0 ∨ 10000000 < delay then none
      else if resolve host then some (host, port, delay)
      else none
    else none
  | _ => none

/-- `Telescope::create` (lines 181-224).  The url must match
`^([^:]*):([^:]*)(:(.*))?$`; name, type and params are the trimmed capture
groups.  Type `Dummy` builds the simulator (its default `isInitialized()`
— declared in the class header, which is not part of this repository — is
modelled from the spec: the simulator variant always constructs).  Type
`TCP` builds the stream client, which the factory discards again when the
constructor left it uninitialised.  Any other type yields no object. -/
def create (resolve : List Char → Bool) (url : List Char) : Option Telescope :=
  match splitOnChar ':' url with
  | n :: t :: rest =>
    let name := trimChars n
    let ty := trimChars t
    let params := trimChars (joinColon rest)
    if ty = dummyChars then some (.dummy name)
    else if ty = tcpChars then
      match parseTcpParams resolve params with
      | some (host, port, delay) => some (.tcp name host port delay)
      | none => none
    else none
  | _ => none

/-- Modelled from the spec (§4.1, §6, §8): acceptance condition of the
factory as the claim states it — the string matches `NAME:TYPE[:PARAMS]`,
`TYPE` is a recognized variant, and for the stream variant `PARAMS` is
`HOST:PORT:DELAY_MICROS` with decimal `PORT ∈ [1,65535]`, decimal
`DELAY_MICROS ∈ [1,10000000]` and a resolvable host. -/
def specAccepts (resolve : List Char → Bool) (url : List Char) : Bool :=
  match splitOnChar ':' url with
  | _ :: t :: rest =>
    if trimChars t = dummyChars then true
    else if trimChars t = tcpChars then
      match splitOnChar ':' (trimChars (joinColon rest)) with
      | [h, p, d] =>
        isDigitRun p && isDigitRun d &&
          1 ≤ digitsVal p && digitsVal p ≤ 65535 &&
          1 ≤ digitsVal d && digitsVal d ≤ 10000000 &&
          resolve (trimChars h)
      | _ => false
    else false
  | _ => false

/-! ### Real-valued interpretation of query results

The selection logic of `getObsJ2000Pos` is exact integer/rational
arithmetic, but the final renormalisation divides by a square root, so the
vector actually returned to the caller lives in real-valued space. -/

/-- A vector of three real components. -/
structure RVec3 where
  x : ℝ
  y : ℝ
  z : ℝ

noncomputable instance : Add RVec3 := ⟨fun a b => ⟨a.x + b.x, a.y + b.y, a.z + b.z⟩⟩

noncomputable instance : SMul ℝ RVec3 := ⟨fun a v => ⟨a * v.x, a * v.y, a * v.z⟩⟩

/-- Real interpretation of an exact-rational vector. -/
def Vec3.toR (v : Vec3) : RVec3 := ⟨(v.x : ℝ), (v.y : ℝ), (v.z : ℝ)⟩

/-- Dot product of real vectors. -/
noncomputable def RVec3.dot (a b : RVec3) : ℝ := a.x * b.x + a.y * b.y + a.z * b.z

/-- `Vec3d::lengthSquared()` on the real interpretation. -/
noncomputable def RVec3.lengthSq (v : RVec3) : ℝ := v.x * v.x + v.y * v.y + v.z * v.z

/-- The vector `getObsJ2000Pos` actually returns: the zero vector, the
blended vector scaled by `1.0/sqrt(f)` (line 554), or a raw stored
direction. -/
noncomputable def obsVec : ObsResult → RVec3
  | .zero => ⟨0, 0, 0⟩
  | .blend v => (1 / Real.sqrt (Vec3.toR v).lengthSq) • Vec3.toR v
  | .raw v => v.toR

/-! ### Claims -/

/-- Claim C10: whenever no position sample has ever been received (the
current history slot still carries the unset sentinel timestamp),
`getObsJ2000Pos` returns exactly the zero vector `(0,0,0)` — not a unit
direction — while `hasKnownPosition` reports false. -/
theorem claim_C10 (s : TcpState) (tnow : Int)
    (h : (s.positions s.posPtr).client_micros = unsetMicros) :
    getObsCore s tnow = .zero ∧
      obsVec (getObsCore s tnow) = ⟨0, 0, 0⟩ ∧
      hasKnownPositionB s = false := by
  have h1 : getObsCore s tnow = .zero := by simp [getObsCore, h]
  exact ⟨h1, by rw [h1]; rfl, by simp [hasKnownPositionB, h]⟩

/-- Witness for C10: the freshly constructed client at a concrete query
time. -/
theorem claim_C10_witness :
    getObsCore (initState 500000) 12345 = .zero ∧
      obsVec (getObsCore (initState 500000) 12345) = ⟨0, 0, 0⟩ ∧
      hasKnownPositionB (initState 500000) = false :=
  claim_C10 (initState 500000) 12345 (by decide)

/-- Claim C7: for every state of the outbound byte queue, a goto request
that would overflow the queue's fixed 120-byte capacity is dropped: the
state (in particular the already-queued bytes) is unchanged, the new
20-byte command is discarded entirely, and no error is surfaced (the
operation is total and returns only the state). -/
theorem claim_C7 (now ra_int dec_int : Int) (s : TcpState)
    (h : buffCapacity < s.writeBuff.length + 20) :
    telescopeGoto now ra_int dec_int s = s := by
  unfold telescopeGoto
  have h2 : ¬ (s.writeBuff.length + 20 < buffCapacity) := by omega
  simp [h2]

/-- A connected state whose outbound queue already holds 101 bytes, so a
20-byte frame can no longer be appended. -/
def fullQueueState : TcpState :=
  { initState 0 with fdValid := true, writeBuff := List.replicate 101 0 }

/-- Witness for C7: the overflowing goto leaves the concrete full-queue
state untouched. -/
theorem claim_C7_witness : telescopeGoto 7 3 4 fullQueueState = fullQueueState :=
  claim_C7 7 3 4 fullQueueState (by decide)

/-- Claim C9: for every client state, running the readiness hook with no
file descriptor marked ready (neither read- nor write-ready) leaves the
whole state — connection state and position history included — unchanged. -/
theorem claim_C9 (env : SockProbe) (sendRes : SendRes) (recvRes : RecvRes)
    (decodeDir : Int → Int → Vec3) (now : Int) (s : TcpState) :
    handleSelectFds env sendRes recvRes decodeDir now false false s = s := by
  simp [handleSelectFds]

/-- The parse loop does not depend on the exact fuel value, as long as the
fuel dominates the buffer length (every iteration consumes at least 4
bytes, so the loop can never exhaust such a fuel). -/
theorem parseLoop_fuel (decodeDir : Int → Int → Vec3) (now : Int) :
    ∀ f1 f2 (s : TcpState) (buf : List Nat), buf.length ≤ f1 →
      buf.length ≤ f2 →
      parseLoop decodeDir now f1 s buf = parseLoop decodeDir now f2 s buf := by
  intro f1
  induction f1 with
  | zero =>
    intro f2 s buf h1 _
    have hb : buf = [] := List.length_eq_zero.mp (Nat.le_zero.mp h1)
    subst hb
    cases f2 <;> simp [parseLoop]
  | succ f ih =>
    intro f2 s buf h1 h2
    cases f2 with
    | zero =>
      have hb : buf = [] := List.length_eq_zero.mp (Nat.le_zero.mp h2)
      subst hb
      simp [parseLoop]
    | succ g =>
      simp only [parseLoop, buffCapacity]
      split
      · rfl
      next hlen =>
        split
        · rfl
        next hsz =>
          split
          · rfl
          next havail =>
            have hdl : (buf.drop (peek16 buf)).length = buf.length - peek16 buf :=
              List.length_drop _ _
            split
            · split
              · rfl
              · exact ih g _ _ (by omega) (by omega)
            · exact ih g _ _ (by omega) (by omega)

/-- Claim C3: the inbound frame parser, run after every successful read,
satisfies: with fewer than 2 buffered bytes it stops, keeping the bytes
compacted at the queue front; with at least 2 bytes it peeks the
little-endian 16-bit length; a length outside `[4, 120]` forces a full
disconnect; an in-range length exceeding the buffered bytes makes it stop
and wait with the bytes kept in place; otherwise it dispatches on the
16-bit type — an unknown type is skipped by advancing exactly `length`
bytes, a well-formed type-0 frame stores its sample — and parsing repeats
on the remaining bytes (a type-0 frame shorter than its 24-byte minimum is
a framing error and also forces the full disconnect); and a successful read
of `data` runs the parser on the previously-kept bytes followed by `data`. -/
theorem claim_C3 (decodeDir : Int → Int → Vec3) (now : Int) (s : TcpState)
    (buf : List Nat) :
    (buf.length < 2 → runParse decodeDir now s buf = { s with readBuff := buf }) ∧
    (2 ≤ buf.length → (peek16 buf < 4 ∨ buffCapacity < peek16 buf) →
      runParse decodeDir now s buf = hangup s) ∧
    (2 ≤ buf.length → 4 ≤ peek16 buf → peek16 buf ≤ buffCapacity →
      buf.length < peek16 buf →
      runParse decodeDir now s buf = { s with readBuff := buf }) ∧
    (4 ≤ peek16 buf → peek16 buf ≤ buffCapacity → peek16 buf ≤ buf.length →
      peek16 (buf.drop 2) ≠ 0 →
      runParse decodeDir now s buf =
        runParse decodeDir now s (buf.drop (peek16 buf))) ∧
    (24 ≤ peek16 buf → peek16 buf ≤ buffCapacity → peek16 buf ≤ buf.length →
      peek16 (buf.drop 2) = 0 →
      runParse decodeDir now s buf =
        runParse decodeDir now
          (storePosition s (i64FromLE (buf.drop 4)) now
            (decodeDir (u32FromLE (buf.drop 12)) (i32FromLE (buf.drop 16)))
            (i32FromLE (buf.drop 20)))
          (buf.drop (peek16 buf))) ∧
    (4 ≤ peek16 buf → peek16 buf < 24 → peek16 buf ≤ buffCapacity →
      peek16 buf ≤ buf.length → peek16 (buf.drop 2) = 0 →
      runParse decodeDir now s buf = hangup s) ∧
    (∀ data, performReading decodeDir now (.bytes data) s =
      runParse decodeDir now s
        (s.readBuff ++ data.take (buffCapacity - s.readBuff.length))) := by
  have bump : runParse decodeDir now s buf =
      parseLoop decodeDir now (buf.length + 1) s buf :=
    parseLoop_fuel decodeDir now buf.length (buf.length + 1) s buf le_rfl
      (by omega)
  have hdl : (buf.drop (peek16 buf)).length = buf.length - peek16 buf :=
    List.length_drop _ _
  refine ⟨?_, ?_, ?_, ?_, ?_, ?_, fun _ => rfl⟩
  · intro h
    rw [bump]
    simp only [parseLoop]
    rw [if_pos h]
  · intro h1 h2
    rw [bump]
    simp only [parseLoop]
    rw [if_neg (by omega), if_pos (by simp only [buffCapacity] at *; omega)]
  · intro h1 h2 h3 h4
    rw [bump]
    simp only [parseLoop]
    rw [if_neg (by omega),
      if_neg (by simp only [buffCapacity] at *; omega), if_pos h4]
  · intro h1 h2 h3 h4
    rw [bump]
    simp only [parseLoop]
    rw [if_neg (by omega),
      if_neg (by simp only [buffCapacity] at *; omega), if_neg (by omega),
      if_neg h4]
    exact parseLoop_fuel decodeDir now buf.length _ s _ (by omega) (by omega)
  · intro h1 h2 h3 h4
    rw [bump]
    simp only [parseLoop]
    rw [if_neg (by omega),
      if_neg (by simp only [buffCapacity] at *; omega), if_neg (by omega),
      if_pos h4, if_neg (by omega)]
    exact parseLoop_fuel decodeDir now buf.length _ _ _ (by omega) (by omega)
  · intro h1 h2 h3 h4 h5
    rw [bump]
    simp only [parseLoop]
    rw [if_neg (by omega),
      if_neg (by simp only [buffCapacity] at *; omega), if_neg (by omega),
      if_pos h5, if_pos (by omega)]

/-- A fixed abstract angle decoder, standing in for the spherical
`cos`/`sin` conversion whose values no claim depends on. -/
def d0 : Int → Int → Vec3 := fun _ _ => ⟨1, 0, 0⟩

/-- A freshly constructed client state used as concrete input. -/
def s0 : TcpState := initState 1

/-- A 24-byte type-0 frame followed by one leftover byte. -/
def c3buf : List Nat :=
  [24, 0, 0, 0, 1, 0, 0, 0, 0, 0, 0, 0, 2, 0, 0, 0, 3, 0, 0, 0, 4, 0, 0, 0, 9]

/-- Witness for C3: each clause of the parser characterization applied at a
concrete buffer — a 1-byte fragment, an oversized length, a not-yet-complete
frame, an unknown-type frame, a complete type-0 frame with a leftover byte,
a short type-0 frame, and a read appending fresh bytes. -/
theorem claim_C3_witness :
    (runParse d0 0 s0 [5] = { s0 with readBuff := [5] }) ∧
    (runParse d0 0 s0 [200, 10] = hangup s0) ∧
    (runParse d0 0 s0 [30, 0] = { s0 with readBuff := [30, 0] }) ∧
    (runParse d0 0 s0 [4, 0, 7, 0, 9] = runParse d0 0 s0 [9]) ∧
    (runParse d0 0 s0 c3buf =
      runParse d0 0
        (storePosition s0 (i64FromLE (c3buf.drop 4)) 0
          (d0 (u32FromLE (c3buf.drop 12)) (i32FromLE (c3buf.drop 16)))
          (i32FromLE (c3buf.drop 20)))
        (c3buf.drop (peek16 c3buf))) ∧
    (runParse d0 0 s0 [10, 0, 0, 0, 1, 2, 3, 4, 5, 6] = hangup s0) ∧
    (performReading d0 0 (.bytes [3, 4]) s0 =
      runParse d0 0 s0 (s0.readBuff ++ [3, 4].take (buffCapacity - s0.readBuff.length))) :=
  ⟨(claim_C3 d0 0 s0 [5]).1 (by decide),
   (claim_C3 d0 0 s0 [200, 10]).2.1 (by decide) (by decide),
   (claim_C3 d0 0 s0 [30, 0]).2.2.1 (by decide) (by decide) (by decide) (by decide),
   (claim_C3 d0 0 s0 [4, 0, 7, 0, 9]).2.2.2.1 (by decide) (by decide) (by decide)
     (by decide),
   (claim_C3 d0 0 s0 c3buf).2.2.2.2.1 (by decide) (by decide) (by decide)
     (by decide),
   (claim_C3 d0 0 s0 [10, 0, 0, 0, 1, 2, 3, 4, 5, 6]).2.2.2.2.2.1 (by decide)
     (by decide) (by decide) (by decide) (by decide),
   (claim_C3 d0 0 s0 c3buf).2.2.2.2.2.2 [3, 4]⟩

/-- Environment in which socket creation and non-blocking setup succeed and
`connect` reports in-progress (`EINPROGRESS`). -/
def envInProgress : NetEnv := ⟨true, true, .inProgress⟩

/-- Environment in which socket creation and non-blocking setup succeed and
`connect` completes immediately. -/
def envImmediate : NetEnv := ⟨true, true, .immediate⟩

/-- A client that entered the Connecting state on the tick at time 0. -/
def connectingAt0 : TcpState := (prepareSelectFds envInProgress 0 s0).1

/-- Counterexample to claim C5 as stated: the client enters Connecting at
time 0, and on the tick at time 2,000,000 µs — more than the claimed
1-second connect timeout after the attempt began — it is still Connecting:
no hangup happens, because the deadline armed at the attempt was
`0 + 5,000,000`. -/
theorem claim_C5_counterexample :
    connState connectingAt0 = .connecting ∧
    connectingAt0.end_of_timeout = 0 + 5000000 ∧
    (1000000 : Int) < 2000000 - 0 ∧
    connState (prepareSelectFds envInProgress 2000000 connectingAt0).1 =
      .connecting := by decide

/-- Claim C5 (amended): the connect timeout is 5 seconds, not 1 second.  If
the client is Connecting with `end_of_timeout = t0 + 5,000,000` (armed when
the connect attempt started at `t0`) and the tick time exceeds that
deadline, the next `prepareSelectFds` forces the socket closed and returns
the client to Disconnected (the 1,000,000 µs constant only re-arms the next
reconnect deadline). -/
theorem claim_C5_amended (env : NetEnv) (now t0 : Int) (s : TcpState)
    (hfd : s.fdValid = true) (hw : s.wait = true)
    (heot : s.end_of_timeout = t0 + 5000000) (hnow : t0 + 5000000 < now) :
    (prepareSelectFds env now s).1 =
      hangup { s with end_of_timeout := now + 1000000 } ∧
    connState (prepareSelectFds env now s).1 = .disconn ∧
    (prepareSelectFds env now s).1.fdValid = false := by
  have h1 : ¬ (s.fdValid = false) := by simp [hfd]
  have h2 : s.end_of_timeout < now := by omega
  have hmain : (prepareSelectFds env now s).1 =
      hangup { s with end_of_timeout := now + 1000000 } := by
    simp only [prepareSelectFds, if_neg h1, hw, if_pos h2, if_true]
  exact ⟨hmain, by rw [hmain]; rfl, by rw [hmain]; rfl⟩

/-- Witness for the amended C5: the tick at 5,000,001 µs hangs up the
client that entered Connecting at time 0. -/
theorem claim_C5_amended_witness :
    (prepareSelectFds envInProgress 5000001 connectingAt0).1 =
      hangup { connectingAt0 with end_of_timeout := 5000001 + 1000000 } ∧
    connState (prepareSelectFds envInProgress 5000001 connectingAt0).1 =
      .disconn ∧
    (prepareSelectFds envInProgress 5000001 connectingAt0).1.fdValid = false :=
  claim_C5_amended envInProgress 5000001 0 connectingAt0 (by decide) (by decide)
    (by decide) (by decide)

/-- A client whose connect attempt on the tick at time 0 completed
immediately, leaving it Connected with `end_of_timeout = 5,000,000`. -/
def connectedAt0 : TcpState := (prepareSelectFds envImmediate 0 s0).1

/-- The same client after the peer closed the connection during the read at
time 5,500,000 µs. -/
def closedAt5500000 : TcpState := performReading d0 5500000 .closed connectedAt0

/-- Counterexample to claim C6 as stated: a zero-byte read at 5,500,000 µs
disconnects the client, yet the tick at 5,600,000 µs — only 100,000 µs
after the disconnect, far less than the 5-second backoff — already starts a
new connection attempt, because `hangup` leaves the reconnect deadline at
the value armed by the previous attempt (5,000,000). -/
theorem claim_C6_counterexample :
    connState connectedAt0 = .connected ∧
    connState closedAt5500000 = .disconn ∧
    closedAt5500000.end_of_timeout = 5000000 ∧
    (5600000 - 5500000 : Int) < 5000000 ∧
    (prepareSelectFds envImmediate 5600000 closedAt5500000).1.fdValid = true := by
  decide

/-- Claim C6 (amended): a zero-byte read on an established connection hangs
up — socket closed and Disconnected, both byte queues discarded, every
history slot reset to the unset sentinel so position-known is false — and
the reconnect backoff deadline `end_of_timeout` is left unchanged, so the
next reconnect attempt occurs no sooner than that deadline (5 s after the
previous connection attempt began), not 5 s after the disconnect. -/
theorem claim_C6_amended (decodeDir : Int → Int → Vec3) (env : NetEnv)
    (tread tnext : Int) (s : TcpState) :
    performReading decodeDir tread .closed s = hangup s ∧
    (hangup s).fdValid = false ∧
    connState (hangup s) = .disconn ∧
    (hangup s).readBuff = [] ∧
    (hangup s).writeBuff = [] ∧
    (hangup s).positions = initialHistory ∧
    hasKnownPositionB (hangup s) = false ∧
    (hangup s).end_of_timeout = s.end_of_timeout ∧
    (tnext < s.end_of_timeout →
      prepareSelectFds env tnext (hangup s) = (hangup s, ⟨false, false⟩)) := by
  refine ⟨rfl, rfl, rfl, rfl, rfl, rfl, by simp [hasKnownPositionB, hangup, initialHistory], rfl, ?_⟩
  intro h
  simp only [prepareSelectFds, hangup, if_true]
  rw [if_pos h]

/-- Witness for the amended C6: the concrete connected client losing its
peer at 5,500,000 µs, with a tick at 4,000,000 µs (before the deadline
armed at time 0) attempting no reconnect. -/
theorem claim_C6_amended_witness :
    performReading d0 5500000 .closed connectedAt0 = hangup connectedAt0 ∧
    (hangup connectedAt0).fdValid = false ∧
    connState (hangup connectedAt0) = .disconn ∧
    (hangup connectedAt0).readBuff = [] ∧
    (hangup connectedAt0).writeBuff = [] ∧
    (hangup connectedAt0).positions = initialHistory ∧
    hasKnownPositionB (hangup connectedAt0) = false ∧
    (hangup connectedAt0).end_of_timeout = connectedAt0.end_of_timeout ∧
    prepareSelectFds envImmediate 4000000 (hangup connectedAt0) =
      (hangup connectedAt0, ⟨false, false⟩) := by
  have h := claim_C6_amended d0 envImmediate 5500000 4000000 connectedAt0
  exact ⟨h.1, h.2.1, h.2.2.1, h.2.2.2.1, h.2.2.2.2.1, h.2.2.2.2.2.1,
    h.2.2.2.2.2.2.1, h.2.2.2.2.2.2.2.1, h.2.2.2.2.2.2.2.2 (by decide)⟩

/-- When every slot holds a real sample and the query time precedes all of
their local-receipt timestamps, the backward scan keeps stepping (each
bracket test fails on its older side) until it wraps: after `fuel` steps
the scan pointer sits `fuel` slots behind where it started. -/
theorem scanLoop_all_before (s : TcpState) (now : Int)
    (hall : ∀ i : Fin 16, (s.positions i).client_micros ≠ unsetMicros)
    (hbefore : ∀ i : Fin 16, now < (s.positions i).client_micros) :
    ∀ (fuel : Nat) (p : Fin 16),
      scanLoop s now p fuel = .raw (s.positions (p - (fuel : Fin 16))).pos := by
  intro fuel
  induction fuel with
  | zero => intro p; simp [scanLoop]
  | succ f ih =>
    intro p
    rw [scanLoop, if_neg (hall (p - 1)),
      if_neg (fun h => absurd h.1 (not_le.mpr (hbefore (p - 1)))), ih (p - 1)]
    have hc : ((f + 1 : ℕ) : Fin 16) = (f : Fin 16) + 1 := by push_cast; ring
    rw [hc, sub_sub, add_comm (1 : Fin 16) (f : Fin 16)]

/-- Claim C2 (amended): when every slot of the 16-slot history holds a real
sample (as after inserting 20 samples) and the query time
`Q = tnow - timeDelay` precedes the local-receipt timestamps of all 16
retained samples, the scan wraps without finding a bracketing pair and the
query returns the NEWEST retained sample's direction (the slot at the write
cursor) — not the oldest's; it never fails and never dereferences an unset
slot (there is none, and the sentinel check would stop the scan first). -/
theorem claim_C2_amended (s : TcpState) (tnow : Int)
    (hall : ∀ i : Fin 16, (s.positions i).client_micros ≠ unsetMicros)
    (hbefore : ∀ i : Fin 16,
      tnow - s.timeDelay < (s.positions i).client_micros) :
    getObsCore s tnow = .raw (s.positions s.posPtr).pos := by
  rw [getObsCore, if_neg (hall s.posPtr)]
  rw [scanLoop_all_before s (tnow - s.timeDelay) hall hbefore 16 s.posPtr]
  have h16 : ((16 : ℕ) : Fin 16) = 0 := by decide
  rw [h16, sub_zero]

/-- The ring-buffer scenario: 20 samples inserted in arrival order, receipt
times 10, 20, …, 200 µs, pairwise distinct directions. -/
def c2Samples : List (Int × ℚ) :=
  [(10, 1), (20, 2), (30, 3), (40, 4), (50, 5), (60, 6), (70, 7), (80, 8),
   (90, 9), (100, 10), (110, 11), (120, 12), (130, 13), (140, 14), (150, 15),
   (160, 16), (170, 17), (180, 18), (190, 19), (200, 20)]

/-- The client state after inserting the 20 samples into the fresh
history. -/
def s20 : TcpState :=
  c2Samples.foldl (fun s td => storePosition s td.1 td.1 ⟨td.2, 0, 0⟩ 0) s0

/-- Counterexample to claim C2 as stated: after the 20 insertions every
slot is real, the query at raw time 5 (so `Q = 4`) precedes all 16 retained
receipt timestamps (the oldest retained sample is the one at time 50, slot
5, direction `(5,0,0)`), yet the query returns the NEWEST retained sample's
direction `(20,0,0)` (receipt time 200), not the oldest retained one. -/
theorem claim_C2_counterexample :
    (∀ i : Fin 16, (s20.positions i).client_micros ≠ unsetMicros) ∧
    (∀ i : Fin 16, (5 : Int) - s20.timeDelay <
      (s20.positions i).client_micros) ∧
    (s20.positions 5).client_micros = 50 ∧
    (∀ i : Fin 16, 50 ≤ (s20.positions i).client_micros) ∧
    (s20.positions s20.posPtr).client_micros = 200 ∧
    getObsCore s20 5 = .raw (s20.positions s20.posPtr).pos ∧
    (s20.positions s20.posPtr).pos = ⟨20, 0, 0⟩ ∧
    getObsCore s20 5 ≠ .raw (s20.positions 5).pos := by decide

/-- Witness for the amended C2: the concrete 20-sample state, whose query
at raw time 5 returns the newest slot's direction. -/
theorem claim_C2_amended_witness :
    getObsCore s20 5 = .raw (s20.positions s20.posPtr).pos :=
  claim_C2_amended s20 5 (by decide) (by decide)

theorem Vec3.lengthSq_eq_zero_iff (v : Vec3) :
    v.lengthSq = 0 ↔ v = ⟨0, 0, 0⟩ := by
  obtain ⟨a, b, c⟩ := v
  unfold Vec3.lengthSq
  constructor
  · intro h
    have ha : a * a = 0 := by
      nlinarith [mul_self_nonneg a, mul_self_nonneg b, mul_self_nonneg c]
    have hb : b * b = 0 := by
      nlinarith [mul_self_nonneg a, mul_self_nonneg b, mul_self_nonneg c]
    have hc : c * c = 0 := by
      nlinarith [mul_self_nonneg a, mul_self_nonneg b, mul_self_nonneg c]
    rw [mul_self_eq_zero.mp ha, mul_self_eq_zero.mp hb, mul_self_eq_zero.mp hc]
  · intro h
    simp only [Vec3.mk.injEq] at h
    obtain ⟨rfl, rfl, rfl⟩ := h
    ring

theorem Vec3.lengthSq_nonneg (v : Vec3) : 0 ≤ v.lengthSq := by
  obtain ⟨a, b, c⟩ := v
  show 0 ≤ a * a + b * b + c * c
  have ha := mul_self_nonneg a
  have hb := mul_self_nonneg b
  have hc := mul_self_nonneg c
  linarith

theorem Vec3.lengthSq_pos_iff (v : Vec3) : 0 < v.lengthSq ↔ v ≠ ⟨0, 0, 0⟩ := by
  constructor
  · intro h heq
    rw [heq] at h
    simp [Vec3.lengthSq] at h
  · intro h
    rcases lt_or_eq_of_le (Vec3.lengthSq_nonneg v) with hlt | heq
    · exact hlt
    · exact absurd ((Vec3.lengthSq_eq_zero_iff v).mp heq.symm) h

theorem RVec3.smul_expand (a : ℝ) (v : RVec3) :
    a • v = ⟨a * v.x, a * v.y, a * v.z⟩ := rfl

theorem RVec3.add_expand (a b : RVec3) :
    a + b = ⟨a.x + b.x, a.y + b.y, a.z + b.z⟩ := rfl

theorem RVec3.lengthSq_smul (c : ℝ) (w : RVec3) :
    (c • w).lengthSq = c * c * w.lengthSq := by
  simp only [RVec3.smul_expand, RVec3.lengthSq]
  ring

theorem RVec3.dot_smul_left (c : ℝ) (w u : RVec3) :
    RVec3.dot (c • w) u = c * RVec3.dot w u := by
  simp only [RVec3.smul_expand, RVec3.dot]
  ring

theorem Vec3.toR_lengthSq (v : Vec3) :
    (Vec3.toR v).lengthSq = (v.lengthSq : ℝ) := by
  obtain ⟨a, b, c⟩ := v
  simp only [Vec3.toR, RVec3.lengthSq, Vec3.lengthSq]
  push_cast
  ring

/-- The blended result is scaled by the reciprocal square root of its
squared length, so (when that length is positive) it is a unit vector. -/
theorem obsVec_blend_unit (v : Vec3) (h : 0 < (Vec3.toR v).lengthSq) :
    (obsVec (.blend v)).lengthSq = 1 := by
  have hs := Real.mul_self_sqrt h.le
  have hne : Real.sqrt (Vec3.toR v).lengthSq ≠ 0 :=
    ne_of_gt (Real.sqrt_pos.mpr h)
  simp only [obsVec, RVec3.lengthSq_smul]
  field_simp

/-- Two samples: direction `A` received at local time 0, direction `B`
received at local time 10, on a client with zero transport delay. -/
def twoSampleState (A B : Vec3) : TcpState :=
  storePosition (storePosition (initState 0) 0 0 A 0) 10 10 B 0

/-- Evaluating the query at raw time 5 on the two-sample history: the scan
finds the bracketing pair, blends with weights `Q - 0` and `10 - Q`, and
returns the blend when it is nonzero, the newer raw direction otherwise. -/
theorem twoSample_eval (A B : Vec3) :
    getObsCore (twoSampleState A B) 5 =
      if 0 < (((5 : ℤ) : ℚ) • B + ((5 : ℤ) : ℚ) • A).lengthSq then
        .blend (((5 : ℤ) : ℚ) • B + ((5 : ℤ) : ℚ) • A)
      else .raw B := rfl

/-- The condition of line 547: a history slot carries a real (non-sentinel)
local-receipt timestamp. -/
abbrev slotSet (s : TcpState) (i : Fin 16) : Prop :=
  (s.positions i).client_micros ≠ unsetMicros

/-- The bracket test of line 548 at scan position `p`: the older slot
`p - 1` and the newer slot `p` straddle the query time. -/
abbrev brackets (s : TcpState) (now : Int) (p : Fin 16) : Prop :=
  (s.positions (p - 1)).client_micros ≤ now ∧
    now ≤ (s.positions p).client_micros

/-- The pre-normalization blend `rval` of lines 550-551 at scan position
`p`: `p->pos * (now - pp->client_micros) + pp->pos * (p->client_micros -
now)`, i.e. the newer direction weighted by `Q - older.t` plus the older
direction weighted by `newer.t - Q`. -/
def blendAt (s : TcpState) (now : Int) (p : Fin 16) : Vec3 :=
  ((now - (s.positions (p - 1)).client_micros : Int) : ℚ) •
    (s.positions p).pos +
  (((s.positions p).client_micros - now : Int) : ℚ) •
    (s.positions (p - 1)).pos

/-- Stepping the backward scan past `k` adjacent pairs whose older slot is
set but which do not bracket the query time moves the scan pointer back
`k` slots. -/
theorem scanLoop_pass (s : TcpState) (now : Int) :
    ∀ (k : Nat) (p : Fin 16) (fuel : Nat),
      (∀ j : Nat, j < k → slotSet s (p - (j : Fin 16) - 1) ∧
        ¬ brackets s now (p - (j : Fin 16))) →
      scanLoop s now p (k + fuel) =
        scanLoop s now (p - (k : Fin 16)) fuel := by
  intro k
  induction k with
  | zero =>
    intro p fuel _
    simp
  | succ m ih =>
    intro p fuel h
    have h0 : slotSet s (p - 1) ∧ ¬ brackets s now p := by
      have := h 0 (Nat.succ_pos m)
      simpa using this
    have hstep : m + 1 + fuel = m + fuel + 1 := by omega
    rw [hstep, scanLoop, if_neg h0.1, if_neg h0.2]
    have hsh : ∀ j : Nat, j < m → slotSet s ((p - 1) - (j : Fin 16) - 1) ∧
        ¬ brackets s now ((p - 1) - (j : Fin 16)) := by
      intro j hj
      have hidx : p - ((j + 1 : ℕ) : Fin 16) = (p - 1) - (j : Fin 16) := by
        push_cast
        ring
      have := h (j + 1) (by omega)
      rwa [hidx] at this
    have hfin : (p - 1) - (m : Fin 16) = p - ((m + 1 : ℕ) : Fin 16) := by
      push_cast
      ring
    rw [ih (p - 1) fuel hsh, hfin]

/-- One scan step at a set, bracketing pair with differing timestamps
(lines 547-557): the loop returns the blend when it is nonzero before
normalization, the newer slot's raw direction otherwise. -/
theorem scanLoop_bracket_hit (s : TcpState) (now : Int) (p : Fin 16)
    (fuel : Nat) (hset : slotSet s (p - 1)) (hbr : brackets s now p)
    (hdiff : (s.positions (p - 1)).client_micros ≠
      (s.positions p).client_micros) :
    scanLoop s now p (fuel + 1) =
      if 0 < (blendAt s now p).lengthSq then .blend (blendAt s now p)
      else .raw (s.positions p).pos := by
  rw [scanLoop, if_neg hset, if_pos hbr, if_pos hdiff]
  rfl

/-- Claim C1: for the query at `Q = tnow - timeDelay`: if at least one
sample has been received and the backward scan from the newest slot, after
stepping past `k` adjacent pairs that are set but do not bracket `Q`,
reaches an adjacent pair (older = slot `p - 1`, newer = slot `p`, where
`p = posPtr - k`) with `older.client_micros ≤ Q ≤ newer.client_micros` and
the two timestamps differing, the result is the linear blend
`newer.pos*(Q - older.t) + older.pos*(newer.t - Q)` renormalized to unit
length (`obsVec` scales it by the reciprocal square root of its squared
length, and the result is a unit vector whenever the blend is nonzero);
when the blend is zero before normalization, the newer sample's raw
direction is returned.  In particular, for unit directions `A` (received
at `t = 0`) and `B` (at `t = 10`) with zero transport delay, the query at
`t = 5` returns a unit vector angularly equidistant from `A` and `B`
(equal dot products), distinct from the unnormalized arithmetic midpoint
`(A+B)/2` whenever `A ≠ B`; if `A + B = 0` the blend degenerates and the
newer raw direction `B` is returned. -/
theorem claim_C1 :
    (∀ (s : TcpState) (tnow : Int) (k : Nat), k < 16 →
      slotSet s s.posPtr →
      (∀ j : Nat, j < k → slotSet s (s.posPtr - (j : Fin 16) - 1) ∧
        ¬ brackets s (tnow - s.timeDelay) (s.posPtr - (j : Fin 16))) →
      slotSet s (s.posPtr - (k : Fin 16) - 1) →
      brackets s (tnow - s.timeDelay) (s.posPtr - (k : Fin 16)) →
      (s.positions (s.posPtr - (k : Fin 16) - 1)).client_micros ≠
        (s.positions (s.posPtr - (k : Fin 16))).client_micros →
      (getObsCore s tnow =
        if 0 < (blendAt s (tnow - s.timeDelay)
            (s.posPtr - (k : Fin 16))).lengthSq then
          .blend (blendAt s (tnow - s.timeDelay) (s.posPtr - (k : Fin 16)))
        else .raw (s.positions (s.posPtr - (k : Fin 16))).pos) ∧
      obsVec (.blend (blendAt s (tnow - s.timeDelay)
          (s.posPtr - (k : Fin 16)))) =
        (1 / Real.sqrt (Vec3.toR (blendAt s (tnow - s.timeDelay)
            (s.posPtr - (k : Fin 16)))).lengthSq) •
          Vec3.toR (blendAt s (tnow - s.timeDelay)
            (s.posPtr - (k : Fin 16))) ∧
      (0 < (blendAt s (tnow - s.timeDelay)
          (s.posPtr - (k : Fin 16))).lengthSq →
        (obsVec (getObsCore s tnow)).lengthSq = 1) ∧
      ((blendAt s (tnow - s.timeDelay)
          (s.posPtr - (k : Fin 16))).lengthSq = 0 →
        getObsCore s tnow =
          .raw (s.positions (s.posPtr - (k : Fin 16))).pos)) ∧
    (∀ (A B : Vec3), A.lengthSq = 1 → B.lengthSq = 1 →
      (A + B ≠ ⟨0, 0, 0⟩ →
        getObsCore (twoSampleState A B) 5 =
          .blend (((5 : ℤ) : ℚ) • B + ((5 : ℤ) : ℚ) • A) ∧
        (obsVec (getObsCore (twoSampleState A B) 5)).lengthSq = 1 ∧
        RVec3.dot (obsVec (getObsCore (twoSampleState A B) 5)) (Vec3.toR A) =
          RVec3.dot (obsVec (getObsCore (twoSampleState A B) 5)) (Vec3.toR B) ∧
        (A ≠ B →
          obsVec (getObsCore (twoSampleState A B) 5) ≠
            ((1 : ℝ) / 2) • (Vec3.toR A + Vec3.toR B))) ∧
      (A + B = ⟨0, 0, 0⟩ → getObsCore (twoSampleState A B) 5 = .raw B)) := by
  constructor
  · intro s tnow k hk hknown hpass hset hbr hdiff
    have hmain : getObsCore s tnow =
        if 0 < (blendAt s (tnow - s.timeDelay)
            (s.posPtr - (k : Fin 16))).lengthSq then
          .blend (blendAt s (tnow - s.timeDelay) (s.posPtr - (k : Fin 16)))
        else .raw (s.positions (s.posPtr - (k : Fin 16))).pos := by
      rw [getObsCore, if_neg hknown]
      show scanLoop s (tnow - s.timeDelay) s.posPtr 16 = _
      have hkey := scanLoop_pass s (tnow - s.timeDelay) k s.posPtr (16 - k)
        hpass
      rw [show k + (16 - k) = 16 from by omega] at hkey
      have hhit := scanLoop_bracket_hit s (tnow - s.timeDelay)
        (s.posPtr - (k : Fin 16)) (15 - k) hset hbr hdiff
      rw [show 15 - k + 1 = 16 - k from by omega] at hhit
      rw [hkey, hhit]
    refine ⟨hmain, rfl, ?_, ?_⟩
    · intro hpos
      have hR : 0 < (Vec3.toR (blendAt s (tnow - s.timeDelay)
          (s.posPtr - (k : Fin 16)))).lengthSq := by
        rw [Vec3.toR_lengthSq]
        exact_mod_cast hpos
      rw [hmain, if_pos hpos]
      exact obsVec_blend_unit _ hR
    · intro h0
      rw [hmain, if_neg (by simp [h0])]
  · intro A B hA hB
    obtain ⟨ax, ay, az⟩ := A
    obtain ⟨bx, bb, bz⟩ := B
    unfold Vec3.lengthSq at hA hB
    have hAR : (ax : ℝ) * ax + (ay : ℝ) * ay + (az : ℝ) * az = 1 := by
      exact_mod_cast hA
    have hBR : (bx : ℝ) * bx + (bb : ℝ) * bb + (bz : ℝ) * bz = 1 := by
      exact_mod_cast hB
    constructor
    · intro hne
      have hrne : ((5 : ℤ) : ℚ) • Vec3.mk bx bb bz + ((5 : ℤ) : ℚ) • Vec3.mk ax ay az ≠
          ⟨0, 0, 0⟩ := by
        intro h0
        apply hne
        simp only [Vec3.smul_def, Vec3.add_def, Vec3.mk.injEq] at h0 ⊢
        push_cast at h0
        obtain ⟨h1, h2, h3⟩ := h0
        refine ⟨by linarith, by linarith, by linarith⟩
      have hpos : 0 < (((5 : ℤ) : ℚ) • Vec3.mk bx bb bz +
          ((5 : ℤ) : ℚ) • Vec3.mk ax ay az).lengthSq :=
        (Vec3.lengthSq_pos_iff _).mpr hrne
      have heval : getObsCore (twoSampleState ⟨ax, ay, az⟩ ⟨bx, bb, bz⟩) 5 =
          .blend (((5 : ℤ) : ℚ) • Vec3.mk bx bb bz +
            ((5 : ℤ) : ℚ) • Vec3.mk ax ay az) := by
        rw [twoSample_eval]
        exact if_pos hpos
      have hfpos : 0 < (Vec3.toR (((5 : ℤ) : ℚ) • Vec3.mk bx bb bz +
          ((5 : ℤ) : ℚ) • Vec3.mk ax ay az)).lengthSq := by
        rw [Vec3.toR_lengthSq]
        exact_mod_cast hpos
      refine ⟨heval, ?_, ?_, ?_⟩
      · rw [heval]
        exact obsVec_blend_unit _ hfpos
      · rw [heval]
        simp only [obsVec, RVec3.dot_smul_left]
        congr 1
        simp only [Vec3.smul_def, Vec3.add_def, Vec3.toR, RVec3.dot]
        push_cast
        linear_combination (5 : ℝ) * hAR - (5 : ℝ) * hBR
      · intro hABne
        have hdlt : (ax : ℝ) * bx + (ay : ℝ) * bb + (az : ℝ) * bz < 1 := by
          have hcomp : ¬ (ax = bx ∧ ay = bb ∧ az = bz) := by
            intro ⟨h1, h2, h3⟩
            exact hABne (by rw [h1, h2, h3])
          have hsq : 0 < ((ax : ℝ) - bx) * ((ax : ℝ) - bx) +
              ((ay : ℝ) - bb) * ((ay : ℝ) - bb) +
              ((az : ℝ) - bz) * ((az : ℝ) - bz) := by
            rcases not_and_or.mp hcomp with h | h'
            · have : (ax : ℝ) ≠ bx := by exact_mod_cast h
              nlinarith [mul_self_nonneg ((ay : ℝ) - bb),
                mul_self_nonneg ((az : ℝ) - bz),
                mul_self_pos.mpr (sub_ne_zero.mpr this)]
            · rcases not_and_or.mp h' with h | h
              · have : (ay : ℝ) ≠ bb := by exact_mod_cast h
                nlinarith [mul_self_nonneg ((ax : ℝ) - bx),
                  mul_self_nonneg ((az : ℝ) - bz),
                  mul_self_pos.mpr (sub_ne_zero.mpr this)]
              · have : (az : ℝ) ≠ bz := by exact_mod_cast h
                nlinarith [mul_self_nonneg ((ax : ℝ) - bx),
                  mul_self_nonneg ((ay : ℝ) - bb),
                  mul_self_pos.mpr (sub_ne_zero.mpr this)]
          nlinarith [hsq]
        intro hcontra
        have hunit : (obsVec (getObsCore
            (twoSampleState ⟨ax, ay, az⟩ ⟨bx, bb, bz⟩) 5)).lengthSq = 1 := by
          rw [heval]
          exact obsVec_blend_unit _ hfpos
        rw [hcontra, RVec3.lengthSq_smul] at hunit
        simp only [Vec3.toR, RVec3.add_expand, RVec3.lengthSq] at hunit
        nlinarith [hunit, hAR, hBR, hdlt]
    · intro hsum
      rw [twoSample_eval]
      apply if_neg
      simp only [Vec3.add_def, Vec3.mk.injEq] at hsum
      obtain ⟨h1, h2, h3⟩ := hsum
      have hz : ((5 : ℤ) : ℚ) • Vec3.mk bx bb bz + ((5 : ℤ) : ℚ) • Vec3.mk ax ay az =
          ⟨0, 0, 0⟩ := by
        simp only [Vec3.smul_def, Vec3.add_def, Vec3.mk.injEq]
        push_cast
        refine ⟨by linarith, by linarith, by linarith⟩
      rw [hz]
      simp [Vec3.lengthSq]

/-- Witness for C1: the general bracket rule applied at `k = 0` on samples
`A = (1,0,0)` received at `t = 0` and `B = (0,1,0)` at `t = 10` with the
asymmetric query `Q = 3`, whose distinct blend weights `Q - 0 = 3` (on the
newer direction `B`) and `10 - Q = 7` (on the older direction `A`)
distinguish the weight assignment; plus the symmetric `Q = 5` scenario:
unit result, equidistant from both samples, distinct from the arithmetic
midpoint. -/
theorem claim_C1_witness :
    getObsCore (twoSampleState ⟨1, 0, 0⟩ ⟨0, 1, 0⟩) 3 =
      .blend (((3 : ℤ) : ℚ) • ⟨0, 1, 0⟩ + ((7 : ℤ) : ℚ) • ⟨1, 0, 0⟩) ∧
    getObsCore (twoSampleState ⟨1, 0, 0⟩ ⟨0, 1, 0⟩) 5 =
      .blend (((5 : ℤ) : ℚ) • ⟨0, 1, 0⟩ + ((5 : ℤ) : ℚ) • ⟨1, 0, 0⟩) ∧
    (obsVec (getObsCore (twoSampleState ⟨1, 0, 0⟩ ⟨0, 1, 0⟩) 5)).lengthSq = 1 ∧
    RVec3.dot (obsVec (getObsCore (twoSampleState ⟨1, 0, 0⟩ ⟨0, 1, 0⟩) 5))
        (Vec3.toR ⟨1, 0, 0⟩) =
      RVec3.dot (obsVec (getObsCore (twoSampleState ⟨1, 0, 0⟩ ⟨0, 1, 0⟩) 5))
        (Vec3.toR ⟨0, 1, 0⟩) ∧
    obsVec (getObsCore (twoSampleState ⟨1, 0, 0⟩ ⟨0, 1, 0⟩) 5) ≠
      ((1 : ℝ) / 2) • (Vec3.toR ⟨1, 0, 0⟩ + Vec3.toR ⟨0, 1, 0⟩) := by
  have hg := (claim_C1.1 (twoSampleState ⟨1, 0, 0⟩ ⟨0, 1, 0⟩) 3 0 (by decide)
    (by decide) (fun j hj => absurd hj (Nat.not_lt_zero j)) (by decide)
    (by decide) (by decide)).1
  have hb : blendAt (twoSampleState ⟨1, 0, 0⟩ ⟨0, 1, 0⟩)
      (3 - (twoSampleState ⟨1, 0, 0⟩ ⟨0, 1, 0⟩).timeDelay)
      ((twoSampleState ⟨1, 0, 0⟩ ⟨0, 1, 0⟩).posPtr - ((0 : ℕ) : Fin 16)) =
      ((3 : ℤ) : ℚ) • ⟨0, 1, 0⟩ + ((7 : ℤ) : ℚ) • ⟨1, 0, 0⟩ := rfl
  have hpos : (0 : ℚ) < (((3 : ℤ) : ℚ) • (⟨0, 1, 0⟩ : Vec3) +
      ((7 : ℤ) : ℚ) • ⟨1, 0, 0⟩).lengthSq :=
    (Vec3.lengthSq_pos_iff _).mpr
      (by simp [Vec3.smul_def, Vec3.add_def, Vec3.mk.injEq])
  have hc := (claim_C1.2 ⟨1, 0, 0⟩ ⟨0, 1, 0⟩ (by simp [Vec3.lengthSq])
    (by simp [Vec3.lengthSq])).1 (by simp [Vec3.add_def, Vec3.mk.injEq])
  exact ⟨by rw [hg, hb, if_pos hpos], hc.1, hc.2.1, hc.2.2.1,
    hc.2.2.2 (by simp [Vec3.mk.injEq])⟩

/-- `QString::toInt` of a digit run accepted against an upper bound `m` at
most `INT_MAX` is equivalent to the plain decimal value lying in `[1, m]`:
an overflowing value collapses to 0 and is rejected either way. -/
theorem qToInt_range (l : List Char) (m : Int) (hm : 0 < m)
    (hm2 : m ≤ 2147483647) :
    (¬ (qToInt l ≤ 0 ∨ m < qToInt l)) ↔
      (1 ≤ digitsVal l ∧ (digitsVal l : Int) ≤ m) := by
  unfold qToInt
  split <;> omega

/-- The `TelescopeTcp` parameter validation, on params of the
`HOST:PORT:DELAY` shape, succeeds exactly when both numeric fields are
digit runs whose decimal values lie in `[1,65535]` and `[1,10000000]` and
the host resolves. -/
theorem tcpAccept_iff (resolve : List Char → Bool) (h p d : List Char)
    (params : List Char) (hsp : splitOnChar ':' params = [h, p, d]) :
    (parseTcpParams resolve params).isSome = true ↔
      (isDigitRun p = true ∧ isDigitRun d = true ∧
       1 ≤ digitsVal p ∧ digitsVal p ≤ 65535 ∧
       1 ≤ digitsVal d ∧ digitsVal d ≤ 10000000 ∧
       resolve (trimChars h) = true) := by
  unfold parseTcpParams
  rw [hsp]
  by_cases hdig : (isDigitRun p && isDigitRun d) = true
  · have hdig2 := hdig
    simp only [Bool.and_eq_true] at hdig2
    by_cases hport : qToInt p ≤ 0 ∨ 0xFFFF < qToInt p
    · exact iff_of_false (by simp [hdig, hport]) (fun hh =>
        (qToInt_range p 0xFFFF (by norm_num) (by norm_num)).mpr
          ⟨hh.2.2.1, by exact_mod_cast hh.2.2.2.1⟩ hport)
    · have hp1 := (qToInt_range p 0xFFFF (by norm_num) (by norm_num)).mp hport
      by_cases hdelay : qToInt d ≤ 0 ∨ 10000000 < qToInt d
      · exact iff_of_false (by simp [hdig, hport, hdelay]) (fun hh =>
          (qToInt_range d 10000000 (by norm_num) (by norm_num)).mpr
            ⟨hh.2.2.2.2.1, by exact_mod_cast hh.2.2.2.2.2.1⟩ hdelay)
      · have hd1 := (qToInt_range d 10000000 (by norm_num)
          (by norm_num)).mp hdelay
        by_cases hres : resolve (trimChars h) = true
        · exact iff_of_true (by simp [hdig, hport, hdelay, hres])
            ⟨hdig2.1, hdig2.2, hp1.1, by exact_mod_cast hp1.2, hd1.1,
              by exact_mod_cast hd1.2, hres⟩
        · exact iff_of_false (by simp [hdig, hport, hdelay, hres])
            (fun hh => hres hh.2.2.2.2.2.2)
  · refine iff_of_false (by simp [hdig]) (fun hh => hdig ?_)
    simp [hh.1, hh.2.1]

/-- The two recognized type tags differ. -/
theorem tcp_ne_dummy : tcpChars ≠ dummyChars := by decide

/-- Claim C4: for every descriptor string, the factory yields a telescope
object iff the string matches `NAME:TYPE[:PARAMS]` (at least one `:`, with
NAME and TYPE the colon-free leading segments, whitespace-trimmed), TYPE is
a recognized variant, and for the stream variant the PARAMS match
`HOST:PORT:DELAY_MICROS` with decimal `PORT ∈ [1,65535]` and decimal
`DELAY_MICROS ∈ [1,10000000]`; any out-of-range value, unknown TYPE or
non-matching string yields no client.  `specAccepts` is the acceptance
condition written from the claim's words; host resolution (an external DNS
effect the claim is silent about) appears as the same abstract `resolve`
parameter on both sides. -/
theorem claim_C4 (resolve : List Char → Bool) (url : List Char) :
    (create resolve url).isSome = true ↔ specAccepts resolve url = true := by
  unfold create specAccepts
  cases hsegs : splitOnChar ':' url with
  | nil => simp
  | cons n rest0 =>
    cases rest0 with
    | nil => simp
    | cons t rest =>
      by_cases hdummy : trimChars t = dummyChars
      · simp [hdummy]
      · by_cases htcp : trimChars t = tcpChars
        · simp only [if_neg hdummy, if_pos htcp]
          cases hsp : splitOnChar ':' (trimChars (joinColon rest)) with
          | nil =>
            rw [show parseTcpParams resolve (trimChars (joinColon rest)) =
              none by unfold parseTcpParams; rw [hsp]]
            simp
          | cons a r1 =>
            cases r1 with
            | nil =>
              rw [show parseTcpParams resolve (trimChars (joinColon rest)) =
                none by unfold parseTcpParams; rw [hsp]]
              simp
            | cons b r2 =>
              cases r2 with
              | nil =>
                rw [show parseTcpParams resolve (trimChars (joinColon rest)) =
                  none by unfold parseTcpParams; rw [hsp]]
                simp
              | cons c r3 =>
                cases r3 with
                | cons e r4 =>
                  rw [show parseTcpParams resolve
                      (trimChars (joinColon rest)) =
                    none by unfold parseTcpParams; rw [hsp]]
                  simp
                | nil =>
                  have hiff := tcpAccept_iff resolve a b c
                    (trimChars (joinColon rest)) hsp
                  rcases hq : parseTcpParams resolve
                      (trimChars (joinColon rest)) with _ | v
                  · rw [hq] at hiff
                    have hnc := mt hiff.mpr (by simp)
                    refine iff_of_false (by simp [hq]) (fun habs => hnc ?_)
                    simp only [Bool.and_eq_true, decide_eq_true_eq] at habs
                    exact ⟨habs.1.1.1.1.1.1, habs.1.1.1.1.1.2, habs.1.1.1.1.2,
                      habs.1.1.1.2, habs.1.1.2, habs.1.2, habs.2⟩
                  · rw [hq] at hiff
                    simp only [Option.isSome_some, true_iff] at hiff
                    obtain ⟨t1, t2, t3, t4, t5, t6, t7⟩ := hiff
                    refine iff_of_true (by simp [hq]) ?_
                    simp only [Bool.and_eq_true, decide_eq_true_eq]
                    exact ⟨⟨⟨⟨⟨⟨t1, t2⟩, t3⟩, t4⟩, t5⟩, t6⟩, t7⟩
        · simp [hdummy, htcp]

/-- Counterexample to claim C8 as stated: the factory recognizes the type
tags `"Dummy"` and `"TCP"` only, so the descriptor
`"Scope1:Stream:127.0.0.1:10001:500000"` — whose TYPE segment is
`"Stream"` — produces no telescope object at all, even with every host
resolvable. -/
theorem claim_C8_counterexample :
    create (fun _ => true) "Scope1:Stream:127.0.0.1:10001:500000".toList =
      none := by decide

/-- Claim C8 (amended): with the stream variant's actual type tag `"TCP"`
in place of `"Stream"`, the factory applied to
`"Scope1:TCP:127.0.0.1:10001:500000"` produces the stream client with host
`127.0.0.1`, port `10001` and transport delay `500000` µs. -/
theorem claim_C8_amended :
    create (fun _ => true) "Scope1:TCP:127.0.0.1:10001:500000".toList =
      some (.tcp "Scope1".toList "127.0.0.1".toList 10001 500000) := by decide

end Stellarium
